import Mathlib

/-!
Verification of the climate grid transformation pipeline in
`src/data/climate_data.py` (repository `anfelipecb/climate-development`).

The pipeline is embedded shallowly:
* monthly timestamps become the structure `MTime` (year, calendar month);
  the data is monthly-stamped, so the inclusive calendar slice
  `slice("Y1-01-01", "Y2-12-31")` used by the source is a filter on years;
* a gridded value is `Option ℚ` (`none` plays the role of NaN / missing;
  the float32 arithmetic of the source is idealised as exact rationals);
* xarray reductions with their default `skipna=True` become `nanmean`,
  `nanmedian`, `nanmin`, `nanmax` over lists of optional rationals;
* pandas sorting (`sort_values`) becomes `List.insertionSort` with the
  lexicographic key order used by the source.
-/

/-- A monthly timestamp: a year and a calendar month (1..12). -/
structure MTime where
  year : Int
  month : Nat
deriving DecidableEq, Repr

/-- A gridded value: `none` models NaN / missing data. -/
abbrev Val := Option ℚ

/-! ## Longitude normalization (`load_and_clean`, lines 143-149)

The source relabels `longitude` by `((lon + 180) % 360) - 180` and then
re-sorts the field along the longitude axis.  numpy `%` on reals is the
flooring modulus `a - b * ⌊a / b⌋`. -/

/-- Flooring modulus on rationals, the semantics of numpy `%`. -/
def fmod (a b : ℚ) : ℚ := a - b * ⌊a / b⌋

/-- `((lon + 180) % 360) - 180`, the longitude relabeling of
`load_and_clean`. -/
def normLon (lon : ℚ) : ℚ := fmod (lon + 180) 360 - 180

/-- `ds.sortby("longitude")`: sort (longitude, data-row) pairs by the
longitude coordinate so ascending index order matches ascending coordinate
value. -/
def sortByLon {α : Type} (rows : List (ℚ × α)) : List (ℚ × α) :=
  rows.insertionSort (fun a b => a.1 ≤ b.1)

lemma fmod_nonneg (a : ℚ) {b : ℚ} (hb : 0 < b) : 0 ≤ fmod a b := by
  have h := Int.fract_nonneg (α := ℚ) (a / b)
  have : fmod a b = b * Int.fract (a / b) := by
    unfold fmod Int.fract
    field_simp
  rw [this]
  positivity

lemma fmod_lt (a : ℚ) {b : ℚ} (hb : 0 < b) : fmod a b < b := by
  have h := Int.fract_lt_one (α := ℚ) (a / b)
  have heq : fmod a b = b * Int.fract (a / b) := by
    unfold fmod Int.fract
    field_simp
  rw [heq]
  calc b * Int.fract (a / b) < b * 1 := by
        exact (mul_lt_mul_left hb).mpr h
    _ = b := mul_one b

/-- Closed form of the longitude map on `[0, 360)`: identity below 180,
shift by −360 at and above 180. -/
lemma normLon_eq (L : ℚ) (h0 : 0 ≤ L) (h1 : L < 360) :
    normLon L = if L < 180 then L else L - 360 := by
  unfold normLon fmod
  by_cases h : L < 180
  · have hfl : ⌊(L + 180) / 360⌋ = 0 := by
      rw [Int.floor_eq_zero_iff]
      constructor
      · have : (0 : ℚ) ≤ L + 180 := by linarith
        positivity
      · rw [div_lt_one (by norm_num)]
        linarith
    simp [h, hfl]
  · have hfl : ⌊(L + 180) / 360⌋ = 1 := by
      rw [Int.floor_eq_iff]
      constructor
      · rw [le_div_iff₀ (by norm_num : (0:ℚ) < 360)]
        push_cast
        linarith
      · rw [div_lt_iff₀ (by norm_num : (0:ℚ) < 360)]
        push_cast
        linarith
    simp [h, hfl]
    ring

lemma normLon_mem_Ico (L : ℚ) (h0 : 0 ≤ L) (h1 : L < 360) :
    -180 ≤ normLon L ∧ normLon L < 180 := by
  rw [normLon_eq L h0 h1]
  by_cases h : L < 180
  · rw [if_pos h]
    exact ⟨by linarith, h⟩
  · rw [if_neg h]
    push_neg at h
    exact ⟨by linarith, by linarith⟩

lemma normLon_injOn (L1 L2 : ℚ) (h10 : 0 ≤ L1) (h11 : L1 < 360)
    (h20 : 0 ≤ L2) (h21 : L2 < 360) (hne : L1 ≠ L2) :
    normLon L1 ≠ normLon L2 := by
  rw [normLon_eq L1 h10 h11, normLon_eq L2 h20 h21]
  by_cases c1 : L1 < 180 <;> by_cases c2 : L2 < 180 <;> simp [c1, c2]
  · exact hne
  · intro h; push_neg at c2; linarith
  · intro h; push_neg at c1; linarith
  · intro h; exact hne (by linarith)

instance {α : Type} : IsTotal (ℚ × α) (fun a b => a.1 ≤ b.1) :=
  ⟨fun a b => le_total a.1 b.1⟩

instance {α : Type} : IsTrans (ℚ × α) (fun a b => a.1 ≤ b.1) :=
  ⟨fun _ _ _ => le_trans⟩

lemma sortByLon_sorted {α : Type} (rows : List (ℚ × α)) :
    List.Sorted (fun a b : ℚ × α => a.1 ≤ b.1) (sortByLon rows) :=
  List.sorted_insertionSort _ rows

lemma sortByLon_perm {α : Type} (rows : List (ℚ × α)) :
    List.Perm (sortByLon rows) rows :=
  List.perm_insertionSort _ rows

/-- C2: `((L + 180) % 360) - 180` maps `[0, 360)` into `[-180, 180)`, is
exact at the boundaries (`180 ↦ -180`, `0 ↦ 0`), introduces no duplicate
coordinate values, and after the `sortby("longitude")` re-sort the
longitude coordinates are strictly increasing in index order. -/
theorem longitude_normalization_correct {α : Type}
    (rows : List (ℚ × α))
    (hmem : ∀ p ∈ rows, 0 ≤ p.1 ∧ p.1 < 360)
    (hnd : (rows.map Prod.fst).Nodup) :
    (∀ L : ℚ, 0 ≤ L → L < 360 →
      normLon L = fmod (L + 180) 360 - 180 ∧ -180 ≤ normLon L ∧ normLon L < 180) ∧
    normLon 180 = -180 ∧ normLon 0 = 0 ∧
    (∀ L1 L2 : ℚ, 0 ≤ L1 → L1 < 360 → 0 ≤ L2 → L2 < 360 → L1 ≠ L2 →
      normLon L1 ≠ normLon L2) ∧
    List.Sorted (· < ·)
      ((sortByLon (rows.map (fun p => (normLon p.1, p.2)))).map Prod.fst) := by
  refine ⟨?_, ?_, ?_, ?_, ?_⟩
  · intro L h0 h1
    exact ⟨rfl, (normLon_mem_Ico L h0 h1).1, (normLon_mem_Ico L h0 h1).2⟩
  · rw [normLon_eq 180 (by norm_num) (by norm_num)]
    norm_num
  · rw [normLon_eq 0 (by norm_num) (by norm_num)]
    norm_num
  · exact normLon_injOn
  · have hle : List.Sorted (fun a b : ℚ × α => a.1 ≤ b.1)
        (sortByLon (rows.map (fun p => (normLon p.1, p.2)))) :=
      sortByLon_sorted _
    have hkey_le : List.Sorted (· ≤ ·)
        ((sortByLon (rows.map (fun p => (normLon p.1, p.2)))).map Prod.fst) := by
      rw [List.Sorted, List.pairwise_map]
      exact hle
    have hperm : List.Perm
        ((sortByLon (rows.map (fun p => (normLon p.1, p.2)))).map Prod.fst)
        ((rows.map (fun p => (normLon p.1, p.2))).map Prod.fst) :=
      (sortByLon_perm _).map Prod.fst
    have hkeys : (rows.map (fun p => (normLon p.1, p.2))).map Prod.fst
        = (rows.map Prod.fst).map normLon := by
      simp [List.map_map]
    have hnd2 : ((rows.map (fun p => (normLon p.1, p.2))).map Prod.fst).Nodup := by
      rw [hkeys]
      refine List.Nodup.map_on ?_ hnd
      intro x hx y hy hxy
      simp only [List.mem_map] at hx hy
      obtain ⟨px, hpx, rfl⟩ := hx
      obtain ⟨py, hpy, rfl⟩ := hy
      by_contra hne
      exact normLon_injOn _ _ (hmem px hpx).1 (hmem px hpx).2
        (hmem py hpy).1 (hmem py hpy).2 hne hxy
    have hnd3 : ((sortByLon (rows.map (fun p => (normLon p.1, p.2)))).map Prod.fst).Nodup :=
      hperm.nodup_iff.mpr hnd2
    exact List.Pairwise.imp₂ (fun a b hab hne => lt_of_le_of_ne hab hne) hkey_le hnd3

/-- C2 witness: the theorem applied to the concrete two-row field with
longitudes 190 and 170 (the worked example of the spec). -/
theorem longitude_normalization_correct_witness :
    (∀ p ∈ [((190 : ℚ), 0), ((170 : ℚ), 1)], 0 ≤ p.1 ∧ p.1 < 360) ∧
    ([((190 : ℚ), 0), ((170 : ℚ), 1)].map Prod.fst).Nodup ∧
    List.Sorted (· < ·)
      ((sortByLon ([((190 : ℚ), 0), ((170 : ℚ), 1)].map
        (fun p => (normLon p.1, p.2)))).map Prod.fst) := by
  refine ⟨by decide, by decide, ?_⟩
  exact (longitude_normalization_correct [((190 : ℚ), 0), ((170 : ℚ), 1)]
    (by decide) (by decide)).2.2.2.2

/-! ## Kelvin-to-Celsius conversion (`load_and_clean`, lines 151-155) -/

/-- A data variable of the loaded dataset: its optional `units` attribute
and its gridded values. -/
structure DataVar where
  units : Option String
  vals : MTime → ℚ → ℚ → Val

/-- Python's `u.lower().startswith("k")` for a unit string: lowercase the
string and test whether its first character is `k`. -/
def lowerStartsWithK (u : String) : Bool :=
  match u.data with
  | [] => false
  | c :: _ => c.toLower = 'k'

/-- The Kelvin-converted values of a variable: every present value has
273.15 subtracted. -/
def kelvinToCelsius (v : DataVar) : MTime → ℚ → ℚ → Val :=
  fun t la lo => (v.vals t la lo).map (fun q => q - 273.15)

/-- Loop body of lines 152-155: if the variable carries a `units`
attribute whose lowercase form starts with `"k"`, subtract 273.15 from
every value and rewrite the attribute to `"C"`; otherwise the variable
passes through untouched. -/
def convertKelvin (v : DataVar) : DataVar :=
  match v.units with
  | some u =>
    if lowerStartsWithK u then DataVar.mk (some "C") (kelvinToCelsius v)
    else v
  | none => v

/-- C6: the conversion subtracts 273.15 and rewrites the unit attribute to
`"C"` exactly when the unit attribute begins with `"k"`/`"K"`
(case-insensitively); other variables pass through bit-identical; and the
conversion is idempotent (in particular it is the identity on an
already-converted `"C"` field). -/
theorem kelvin_conversion_correct (v : DataVar) :
    (∀ u, v.units = some u → lowerStartsWithK u = true →
      convertKelvin v = DataVar.mk (some "C") (kelvinToCelsius v)) ∧
    (∀ u, v.units = some u → lowerStartsWithK u = false →
      convertKelvin v = v) ∧
    (v.units = none → convertKelvin v = v) ∧
    convertKelvin (convertKelvin v) = convertKelvin v := by
  refine ⟨?_, ?_, ?_, ?_⟩
  · intro u hu hk
    simp [convertKelvin, hu, hk]
  · intro u hu hk
    simp [convertKelvin, hu, hk]
  · intro hu
    simp [convertKelvin, hu]
  · match hu : v.units with
    | none => simp [convertKelvin, hu]
    | some u =>
      by_cases hk : lowerStartsWithK u
      · have h1 : convertKelvin v = DataVar.mk (some "C") (kelvinToCelsius v) := by
          simp [convertKelvin, hu, hk]
        rw [h1]
        have hC : lowerStartsWithK "C" = false := by decide
        simp [convertKelvin, hC]
      · have h1 : convertKelvin v = v := by
          simp [convertKelvin, hu, hk]
        rw [h1]
        exact h1

/-- C6 witness: a variable with unit `"K"` and constant value 280 is
converted (280 K becomes 6.85 °C) and the conversion is idempotent
there. -/
theorem kelvin_conversion_correct_witness :
    lowerStartsWithK "K" = true ∧
    convertKelvin (DataVar.mk (some "K") (fun _ _ _ => some 280)) =
      DataVar.mk (some "C")
        (kelvinToCelsius (DataVar.mk (some "K") (fun _ _ _ => some 280))) ∧
    convertKelvin (convertKelvin (DataVar.mk (some "K") (fun _ _ _ => some 280))) =
      convertKelvin (DataVar.mk (some "K") (fun _ _ _ => some 280)) :=
  ⟨by decide,
   (kelvin_conversion_correct (DataVar.mk (some "K") (fun _ _ _ => some 280))).1
     "K" rfl (by decide),
   (kelvin_conversion_correct (DataVar.mk (some "K") (fun _ _ _ => some 280))).2.2.2⟩

/-! ## Time-coordinate standardization (`load_and_clean`, lines 137-141) -/

/-- `xr.Dataset.rename({old: new})` restricted to the coordinate-name
list: every occurrence of `old` is relabeled `new`.  When the new name
collides with a distinct existing coordinate, xarray's rename raises
`ValueError` ("the new name conflicts"), modeled as `none`. -/
def renameCoord (coords : List String) (old new : String) : Option (List String) :=
  if old ∈ coords ∧ new ∈ coords ∧ old ≠ new then none
  else some (coords.map fun c => if c = old then new else c)

/-- Lines 137-141: rename `valid_time` to `time` whenever `valid_time` is
present; otherwise rename `date` to `time` when `date` is present and
`time` is absent; otherwise leave the coordinates alone. -/
def standardizeTimeCoord (coords : List String) : Option (List String) :=
  if "valid_time" ∈ coords then renameCoord coords "valid_time" "time"
  else if "date" ∈ coords ∧ "time" ∉ coords then renameCoord coords "date" "time"
  else some coords

/-- C8 counterexample: with both `time` and `valid_time` present the code
still attempts the `valid_time → time` rename (the first branch does not
check for `time`), so the dataset does not pass through unchanged —
refuting "if a coordinate named time already exists no rename occurs at
all". -/
theorem time_rename_counterexample :
    standardizeTimeCoord ["time", "valid_time"] ≠ some ["time", "valid_time"] := by
  decide

/-- C8 amended: at most one alias is renamed, and an existing `time`
coordinate suppresses the rename only in the `date` branch — when
`valid_time` is also present the `valid_time → time` rename is attempted
unconditionally (faulting on the name collision). -/
theorem time_rename_amended (coords : List String) :
    ("valid_time" ∈ coords → "time" ∉ coords →
      standardizeTimeCoord coords
        = some (coords.map fun c => if c = "valid_time" then "time" else c)) ∧
    ("valid_time" ∈ coords → "time" ∈ coords →
      standardizeTimeCoord coords = none) ∧
    ("valid_time" ∉ coords → "date" ∈ coords → "time" ∉ coords →
      standardizeTimeCoord coords
        = some (coords.map fun c => if c = "date" then "time" else c)) ∧
    ("valid_time" ∉ coords → "time" ∈ coords →
      standardizeTimeCoord coords = some coords) ∧
    ("valid_time" ∉ coords → "date" ∉ coords →
      standardizeTimeCoord coords = some coords) := by
  refine ⟨?_, ?_, ?_, ?_, ?_⟩
  · intro hv ht
    have hc : ¬("valid_time" ∈ coords ∧ "time" ∈ coords ∧ "valid_time" ≠ "time") := by
      intro h
      exact ht h.2.1
    unfold standardizeTimeCoord renameCoord
    rw [if_pos hv, if_neg hc]
  · intro hv ht
    have hc : ("valid_time" ∈ coords ∧ "time" ∈ coords ∧ "valid_time" ≠ "time") :=
      ⟨hv, ht, by decide⟩
    unfold standardizeTimeCoord renameCoord
    rw [if_pos hv, if_pos hc]
  · intro hv hd ht
    have hc : ¬("date" ∈ coords ∧ "time" ∈ coords ∧ "date" ≠ "time") := by
      intro h
      exact ht h.2.1
    unfold standardizeTimeCoord renameCoord
    rw [if_neg hv, if_pos ⟨hd, ht⟩, if_neg hc]
  · intro hv ht
    have hc : ¬("date" ∈ coords ∧ "time" ∉ coords) := by
      intro h
      exact h.2 ht
    unfold standardizeTimeCoord
    rw [if_neg hv, if_neg hc]
  · intro hv hd
    have hc : ¬("date" ∈ coords ∧ "time" ∉ coords) := by
      intro h
      exact hd h.1
    unfold standardizeTimeCoord
    rw [if_neg hv, if_neg hc]

/-- C8 witness: a dataset whose only time-axis coordinate is already
`time` passes through unchanged. -/
theorem time_rename_amended_witness :
    ("valid_time" ∉ ["time", "latitude", "longitude"]) ∧
    ("time" ∈ ["time", "latitude", "longitude"]) ∧
    standardizeTimeCoord ["time", "latitude", "longitude"]
      = some ["time", "latitude", "longitude"] :=
  ⟨by decide, by decide,
   (time_rename_amended ["time", "latitude", "longitude"]).2.2.2.1
     (by decide) (by decide)⟩

/-! ## Climatology and anomalies (`monthly_anomaly_from_monthly`,
lines 159-182)

The source selects the first data variable, computes
`clim = t2m.sel(time=slice(bs-01-01, be-12-31)).groupby("time.month").mean("time")`
and `anom = t2m.groupby("time.month") - clim`.  The groupby subtraction is
embedded operationally: the time axis is partitioned by calendar month,
the climatology of the group key is subtracted within each group, and the
result is reassembled by looking the timestamp up among the groups. -/

/-- An xarray dataset: monthly time axis, spatial grid, named data
variables. -/
structure Dataset where
  times : List MTime
  lats : List ℚ
  lons : List ℚ
  data_vars : List (String × (MTime → ℚ → ℚ → Val))

/-- Mean with xarray's default `skipna=True`: the mean of the present
values, `none` when no value is present. -/
def nanmean (vs : List Val) : Val :=
  if (vs.filterMap id).length = 0 then none
  else some ((vs.filterMap id).sum / (vs.filterMap id).length)

/-- `sel(time=slice(f"{bs}-01-01", f"{be}-12-31"))` on monthly-stamped
data: the inclusive calendar-year filter. -/
def baselineTimes (times : List MTime) (bs be : Int) : List MTime :=
  times.filter (fun t => decide (bs ≤ t.year ∧ t.year ≤ be))

/-- The baseline timestamps of calendar month `m`: the groups of
`groupby("time.month")` on the baseline slice. -/
def baselineMonthTimes (times : List MTime) (bs be : Int) (m : Nat) : List MTime :=
  (baselineTimes times bs be).filter (fun t => t.month == m)

/-- `groupby("time.month").mean("time")` of the baseline slice, at month
`m` and grid cell `(la, lo)`. -/
def climatology (times : List MTime) (f : MTime → ℚ → ℚ → Val) (bs be : Int)
    (m : Nat) (la lo : ℚ) : Val :=
  nanmean ((baselineMonthTimes times bs be m).map (fun t => f t la lo))

/-- NaN-propagating subtraction of optional values. -/
def subVal : Val → Val → Val
  | some a, some b => some (a - b)
  | _, _ => none

/-- The groups of `t2m.groupby("time.month") - clim` at one grid cell:
for each calendar month 1..12, the timestamps of that month paired with
the value minus the climatology of the group key (a month with no
baseline data has a missing climatology, so its group becomes missing). -/
def groupbySubClim (times : List MTime) (f : MTime → ℚ → ℚ → Val) (bs be : Int)
    (la lo : ℚ) : List (MTime × Val) :=
  (List.range' 1 12).flatMap (fun m =>
    (times.filter (fun t => t.month == m)).map
      (fun t => (t, subVal (f t la lo) (climatology times f bs be m la lo))))

/-- The anomaly field: the groupby subtraction reassembled by timestamp. -/
def anomaly (times : List MTime) (f : MTime → ℚ → ℚ → Val) (bs be : Int)
    (t : MTime) (la lo : ℚ) : Val :=
  match (groupbySubClim times f bs be la lo).find? (fun p => decide (p.1 = t)) with
  | some p => p.2
  | none => none

/-- Lines 159-182: take the **first** data variable of the dataset,
compute the baseline climatology and anomaly, and return a dataset with
variables `t2m_mean_c` and `t2m_anomaly_c` (the `astype("float32")` casts
are idealised as exact rationals).  `none` models the `IndexError` raised
by `list(ds.data_vars)[0]` on a dataset with no data variables. -/
def monthly_anomaly_from_monthly (ds : Dataset) (baseline_start baseline_end : Int) :
    Option Dataset :=
  match ds.data_vars with
  | [] => none
  | (_, f) :: _ =>
    some (Dataset.mk ds.times ds.lats ds.lons
      [("t2m_mean_c", f),
       ("t2m_anomaly_c",
         fun t la lo => anomaly ds.times f baseline_start baseline_end t la lo)])

lemma mem_groupbySubClim {times : List MTime} {f : MTime → ℚ → ℚ → Val}
    {bs be : Int} {la lo : ℚ} {p : MTime × Val}
    (hp : p ∈ groupbySubClim times f bs be la lo) :
    p.1 ∈ times ∧
    p.2 = subVal (f p.1 la lo) (climatology times f bs be p.1.month la lo) := by
  unfold groupbySubClim at hp
  rw [List.mem_flatMap] at hp
  obtain ⟨m, _, hpm⟩ := hp
  rw [List.mem_map] at hpm
  obtain ⟨t, htm, rfl⟩ := hpm
  rw [List.mem_filter] at htm
  have hmonth : t.month = m := by
    have := htm.2
    simpa using this
  exact ⟨htm.1, by rw [hmonth]⟩

lemma groupbySubClim_has_key {times : List MTime} {f : MTime → ℚ → ℚ → Val}
    {bs be : Int} {la lo : ℚ} {t : MTime}
    (ht : t ∈ times) (h1 : 1 ≤ t.month) (h2 : t.month ≤ 12) :
    (t, subVal (f t la lo) (climatology times f bs be t.month la lo))
      ∈ groupbySubClim times f bs be la lo := by
  unfold groupbySubClim
  rw [List.mem_flatMap]
  refine ⟨t.month, ?_, ?_⟩
  · rw [List.mem_range']
    exact ⟨t.month - 1, by omega, by omega⟩
  · rw [List.mem_map]
    exact ⟨t, List.mem_filter.mpr ⟨ht, by simp⟩, rfl⟩

/-- The reassembled groupby subtraction agrees pointwise with
"raw value minus climatology of the timestamp's calendar month". -/
lemma anomaly_eq {times : List MTime} (f : MTime → ℚ → ℚ → Val)
    (bs be : Int) {t : MTime} (la lo : ℚ)
    (ht : t ∈ times) (h1 : 1 ≤ t.month) (h2 : t.month ≤ 12) :
    anomaly times f bs be t la lo
      = subVal (f t la lo) (climatology times f bs be t.month la lo) := by
  unfold anomaly
  cases hfind : (groupbySubClim times f bs be la lo).find? (fun p => decide (p.1 = t)) with
  | none =>
    rw [List.find?_eq_none] at hfind
    exact absurd (by simp : decide (((t, subVal (f t la lo)
        (climatology times f bs be t.month la lo)) : MTime × Val).1 = t) = true)
      (hfind _ (groupbySubClim_has_key ht h1 h2))
  | some p =>
    have hkey : p.1 = t := by
      have := List.find?_some hfind
      simpa using this
    have hmem := mem_groupbySubClim (List.mem_of_find?_eq_some hfind)
    show p.2 = _
    rw [hmem.2, hkey]

lemma mem_baselineMonthTimes {times : List MTime} {bs be : Int} {m : Nat}
    {t : MTime} (ht : t ∈ baselineMonthTimes times bs be m) :
    t ∈ times ∧ t.month = m := by
  unfold baselineMonthTimes baselineTimes at ht
  rw [List.mem_filter] at ht
  obtain ⟨ht1, ht2⟩ := ht
  rw [List.mem_filter] at ht1
  exact ⟨ht1.1, by simpa using ht2⟩

lemma subVal_some (x : Val) (c : ℚ) :
    subVal x (some c) = x.map (fun q => q - c) := by
  cases x <;> rfl

lemma filterMap_id_map_optionMap (g : ℚ → ℚ) (l : List Val) :
    (l.map (Option.map g)).filterMap id = (l.filterMap id).map g := by
  induction l with
  | nil => rfl
  | cons x xs ih => cases x <;> simp [ih]

lemma sum_map_sub_const (l : List ℚ) (c : ℚ) :
    (l.map (fun x => x - c)).sum = l.sum - l.length * c := by
  induction l with
  | nil => simp
  | cons x xs ih =>
    simp [ih]
    ring

/-- C1: for every timestamp of the entire input series — baseline years or
not — the derived anomaly at `(t, la, lo)` equals the raw value minus the
climatology of `t`'s calendar month, the climatology being the
month-grouped mean of the inclusive baseline slice. -/
theorem anomaly_equals_value_minus_climatology
    (ds : Dataset) (bs be : Int) (name : String) (f : MTime → ℚ → ℚ → Val)
    (rest : List (String × (MTime → ℚ → ℚ → Val)))
    (hvars : ds.data_vars = (name, f) :: rest)
    (t : MTime) (ht : t ∈ ds.times) (h1 : 1 ≤ t.month) (h2 : t.month ≤ 12)
    (la lo : ℚ) :
    ∃ g, monthly_anomaly_from_monthly ds bs be
        = some (Dataset.mk ds.times ds.lats ds.lons
            [("t2m_mean_c", f), ("t2m_anomaly_c", g)]) ∧
      g t la lo = subVal (f t la lo)
        (nanmean (((baselineTimes ds.times bs be).filter
          (fun s => s.month == t.month)).map (fun s => f s la lo))) := by
  refine ⟨fun s la' lo' => anomaly ds.times f bs be s la' lo', ?_, ?_⟩
  · simp [monthly_anomaly_from_monthly, hvars]
  · show anomaly ds.times f bs be t la lo = _
    rw [anomaly_eq f bs be la lo ht h1 h2]
    rfl

/-- The worked example of the spec: January 1991 at 6.85 °C and January
1992 at 16.85 °C everywhere on a 2 × 2 grid. -/
def exampleVals : MTime → ℚ → ℚ → Val :=
  fun t _ _ => some (if t.year = 1991 then 685/100 else 1685/100)

/-- The example dataset carrying `exampleVals` as its only variable. -/
def exampleDS : Dataset :=
  Dataset.mk [MTime.mk 1991 1, MTime.mk 1992 1] [10, 20] [170, -170]
    [("t2m", exampleVals)]

/-- C1 witness: in the worked example with baseline 1991-1991, the
January-1992 anomaly is the raw value minus the January climatology. -/
theorem anomaly_equals_value_minus_climatology_witness :
    exampleDS.data_vars = ("t2m", exampleVals) :: [] ∧
    MTime.mk 1992 1 ∈ exampleDS.times ∧
    ∃ g, monthly_anomaly_from_monthly exampleDS 1991 1991
        = some (Dataset.mk exampleDS.times exampleDS.lats exampleDS.lons
            [("t2m_mean_c", exampleVals), ("t2m_anomaly_c", g)]) ∧
      g (MTime.mk 1992 1) 10 170 = subVal (exampleVals (MTime.mk 1992 1) 10 170)
        (nanmean (((baselineTimes exampleDS.times 1991 1991).filter
          (fun s => s.month == (MTime.mk 1992 1).month)).map
            (fun s => exampleVals s 10 170))) :=
  ⟨rfl, by decide,
   anomaly_equals_value_minus_climatology exampleDS 1991 1991 "t2m" exampleVals []
     rfl (MTime.mk 1992 1) (by decide) (by decide) (by decide) 10 170⟩

/-- C3: over exact arithmetic the mean of the anomaly field restricted to
the baseline period, grouped by calendar month, is exactly zero at every
grid cell, whenever the month has at least one present baseline value
(an all-missing month propagates as missing; the source's float32
arithmetic only guarantees the stated 1e-4 °C tolerance). -/
theorem baseline_anomaly_monthly_mean_zero
    (times : List MTime) (f : MTime → ℚ → ℚ → Val) (bs be : Int)
    (m : Nat) (h1 : 1 ≤ m) (h2 : m ≤ 12) (la lo : ℚ)
    (hpresent : ((baselineMonthTimes times bs be m).map
      (fun t => f t la lo)).filterMap id ≠ []) :
    nanmean ((baselineMonthTimes times bs be m).map
      (fun t => anomaly times f bs be t la lo)) = some 0 := by
  set p := ((baselineMonthTimes times bs be m).map (fun t => f t la lo)).filterMap id
    with hp
  have hn : p.length ≠ 0 := fun h => hpresent (List.length_eq_zero.mp h)
  have hnq : ((p.length : ℚ)) ≠ 0 := by
    exact_mod_cast hn
  set c : ℚ := p.sum / p.length with hc
  have hclim : climatology times f bs be m la lo = some c := by
    unfold climatology nanmean
    rw [← hp, if_neg hn, hc]
  have hpt : ∀ t ∈ baselineMonthTimes times bs be m,
      anomaly times f bs be t la lo = Option.map (fun q => q - c) (f t la lo) := by
    intro t htm
    obtain ⟨htmem, hmm⟩ := mem_baselineMonthTimes htm
    rw [anomaly_eq f bs be la lo htmem (by omega) (by omega), hmm, hclim,
      subVal_some]
  rw [List.map_congr_left hpt]
  have hcomp : (baselineMonthTimes times bs be m).map
        (fun t => Option.map (fun q => q - c) (f t la lo))
      = ((baselineMonthTimes times bs be m).map (fun t => f t la lo)).map
          (Option.map (fun q => q - c)) := by
    rw [List.map_map]
    rfl
  rw [hcomp]
  unfold nanmean
  rw [filterMap_id_map_optionMap, ← hp, List.length_map, if_neg hn,
    sum_map_sub_const, hc]
  congr 1
  field_simp

/-- C3 witness: in the worked example with baseline 1991-1991, the
January baseline-anomaly mean at cell (10, 170) is exactly zero. -/
theorem baseline_anomaly_monthly_mean_zero_witness :
    ((baselineMonthTimes exampleDS.times 1991 1991 1).map
      (fun t => exampleVals t 10 170)).filterMap id ≠ [] ∧
    nanmean ((baselineMonthTimes exampleDS.times 1991 1991 1).map
      (fun t => anomaly exampleDS.times exampleVals 1991 1991 t 10 170)) = some 0 :=
  ⟨by decide,
   baseline_anomaly_monthly_mean_zero exampleDS.times exampleVals 1991 1991 1
     (by decide) (by decide) 10 170 (by decide)⟩

/-- C10: the climatology/anomaly stage reads only the first data variable
of its input — any further variables are ignored — and names its two
output fields exactly `t2m_mean_c` and `t2m_anomaly_c`, whatever the
source variable is called. -/
theorem first_variable_only_and_fixed_output_names
    (ds : Dataset) (bs be : Int) (name : String) (f : MTime → ℚ → ℚ → Val)
    (rest : List (String × (MTime → ℚ → ℚ → Val)))
    (hvars : ds.data_vars = (name, f) :: rest) :
    monthly_anomaly_from_monthly ds bs be
      = monthly_anomaly_from_monthly
          (Dataset.mk ds.times ds.lats ds.lons [(name, f)]) bs be ∧
    ∃ out, monthly_anomaly_from_monthly ds bs be = some out ∧
      out.data_vars.map Prod.fst = ["t2m_mean_c", "t2m_anomaly_c"] := by
  refine ⟨by simp [monthly_anomaly_from_monthly, hvars],
    Dataset.mk ds.times ds.lats ds.lons
      [("t2m_mean_c", f),
       ("t2m_anomaly_c", fun t la lo => anomaly ds.times f bs be t la lo)],
    by simp [monthly_anomaly_from_monthly, hvars], rfl⟩

/-- The example dataset with a second, extra data variable. -/
def exampleDS2 : Dataset :=
  Dataset.mk [MTime.mk 1991 1, MTime.mk 1992 1] [10, 20] [170, -170]
    [("t2m", exampleVals), ("extra", fun _ _ _ => none)]

/-- C10 witness: the stage's output on the two-variable example equals its
output with the extra variable dropped, and the output variables are named
`t2m_mean_c` and `t2m_anomaly_c`. -/
theorem first_variable_only_and_fixed_output_names_witness :
    exampleDS2.data_vars
      = ("t2m", exampleVals) :: [("extra", fun _ _ _ => none)] ∧
    (monthly_anomaly_from_monthly exampleDS2 1991 2020
      = monthly_anomaly_from_monthly
          (Dataset.mk exampleDS2.times exampleDS2.lats exampleDS2.lons
            [("t2m", exampleVals)]) 1991 2020 ∧
    ∃ out, monthly_anomaly_from_monthly exampleDS2 1991 2020 = some out ∧
      out.data_vars.map Prod.fst = ["t2m_mean_c", "t2m_anomaly_c"]) :=
  ⟨rfl,
   first_variable_only_and_fixed_output_names exampleDS2 1991 2020 "t2m"
     exampleVals [("extra", fun _ _ _ => none)] rfl⟩

/-! ## Output-file caching (`save_parquet_pandas`, lines 263-269;
`download_monthly_variable`, lines 75-86; `extract_netcdf_from_zip`,
lines 10-50)

The filesystem is a map from paths to (content, modification time); path
arithmetic (deriving the `_extracted.nc` name from the stem) is passed in
as an explicit argument.  A pandas data frame handed to the writer is
represented by its serialized payload. -/

/-- Content of a file on disk: a plain NetCDF payload, a ZIP archive
listing the payloads of its `.nc` members, or a parquet payload. -/
inductive FileContent
  | netcdf (payload : Nat)
  | zipArchive (ncPayloads : List Nat)
  | parquet (payload : Nat)
deriving DecidableEq, Repr

/-- The filesystem: path to (content, mtime). -/
abbrev FS := String → Option (FileContent × Nat)

/-- Writing a file sets its content and stamps the current time. -/
def fsWrite (fs : FS) (path : String) (c : FileContent) (now : Nat) : FS :=
  fun p => if p = path then some (c, now) else fs p

/-- `extract_netcdf_from_zip` (lines 10-50): a non-ZIP file is returned
as-is (`BadZipFile` branch); a ZIP with no `.nc` member raises
(`ValueError`, modeled `none`); otherwise the first member is extracted to
`extractedPath` unless that file already exists. -/
def extract_netcdf_from_zip (fs : FS) (zipPath extractedPath : String)
    (now : Nat) : Option (FS × String) :=
  match fs zipPath with
  | none => none
  | some (FileContent.zipArchive ncs, _) =>
    match ncs with
    | [] => none
    | n :: _ =>
      if (fs extractedPath).isSome then some (fs, extractedPath)
      else some (fsWrite fs extractedPath (FileContent.netcdf n) now, extractedPath)
  | some (_, _) => some (fs, zipPath)

/-- `download_monthly_variable` (lines 75-106): an existing extracted file
short-circuits everything; an existing download is only re-examined for
extraction; otherwise the remote payload is fetched, written to `outFile`
and extracted if needed. -/
def download_monthly_variable (fs : FS) (outFile extractedFile : String)
    (fetched : FileContent) (now : Nat) : Option (FS × String) :=
  if (fs extractedFile).isSome then some (fs, extractedFile)
  else if (fs outFile).isSome then
    extract_netcdf_from_zip fs outFile extractedFile now
  else
    extract_netcdf_from_zip (fsWrite fs outFile fetched now) outFile
      extractedFile now

/-- `save_parquet_pandas` (lines 263-269): writes the frame's serialized
payload to `path` unconditionally — there is no existence check. -/
def save_parquet_pandas (payload : Nat) (path : String) (fs : FS) (now : Nat) : FS :=
  fsWrite fs path (FileContent.parquet payload) now

/-- C9 counterexample: the tabular-writer stage does not skip when its
target exists — rerunning `save_parquet_pandas` on an existing file
rewrites it (here the timestamp moves from 0 to 1 even though the content
is identical), refuting "every stage that writes an output file skips
recomputation and leaves the existing file unchanged". -/
theorem stage_rerun_caching_counterexample :
    save_parquet_pandas 5 "global_monthly_stats_1991_2025.parquet"
      (fun p => if p = "global_monthly_stats_1991_2025.parquet"
        then some (FileContent.parquet 5, 0) else none) 1
      "global_monthly_stats_1991_2025.parquet"
    ≠ (fun p => if p = "global_monthly_stats_1991_2025.parquet"
        then some (FileContent.parquet 5, 0) else none)
      "global_monthly_stats_1991_2025.parquet" := by
  decide

/-- C9 amended: only the download stage reuses an existing artifact — an
existing extracted file (or an existing plain-NetCDF download) is returned
with the filesystem untouched — while the tabular writer overwrites its
target unconditionally, restamping it even on identical input. -/
theorem stage_rerun_caching_amended (fs : FS) (outFile extractedFile : String)
    (fetched : FileContent) (now : Nat) :
    ((fs extractedFile).isSome →
      download_monthly_variable fs outFile extractedFile fetched now
        = some (fs, extractedFile)) ∧
    (fs extractedFile = none →
      ∀ n t, fs outFile = some (FileContent.netcdf n, t) →
        download_monthly_variable fs outFile extractedFile fetched now
          = some (fs, outFile)) ∧
    (∀ payload path now2,
      save_parquet_pandas payload path fs now2 path
        = some (FileContent.parquet payload, now2)) := by
  refine ⟨?_, ?_, ?_⟩
  · intro h
    simp [download_monthly_variable, h]
  · intro hex n t hout
    have hsome : (fs outFile).isSome = true := by
      rw [hout]
      rfl
    simp [download_monthly_variable, hex, hsome, extract_netcdf_from_zip, hout]
  · intro payload path now2
    simp [save_parquet_pandas, fsWrite]

/-- C9 amended witness: with the extracted file present, the download
stage returns it and leaves the filesystem unchanged. -/
theorem stage_rerun_caching_amended_witness :
    (((fun p => if p = "era5_tmean_1991_2025_monthly_extracted.nc"
        then some (FileContent.netcdf 7, 3) else none) : FS)
      "era5_tmean_1991_2025_monthly_extracted.nc").isSome ∧
    download_monthly_variable
      (fun p => if p = "era5_tmean_1991_2025_monthly_extracted.nc"
        then some (FileContent.netcdf 7, 3) else none)
      "era5_tmean_1991_2025_monthly.nc" "era5_tmean_1991_2025_monthly_extracted.nc"
      (FileContent.netcdf 9) 4
    = some ((fun p => if p = "era5_tmean_1991_2025_monthly_extracted.nc"
        then some (FileContent.netcdf 7, 3) else none),
        "era5_tmean_1991_2025_monthly_extracted.nc") :=
  ⟨by decide,
   (stage_rerun_caching_amended
     (fun p => if p = "era5_tmean_1991_2025_monthly_extracted.nc"
       then some (FileContent.netcdf 7, 3) else none)
     "era5_tmean_1991_2025_monthly.nc" "era5_tmean_1991_2025_monthly_extracted.nc"
     (FileContent.netcdf 9) 4).1 (by decide)⟩

/-! ## Global aggregation (`compute_global_monthly_stats`, lines 200-230)

The source reduces each requested variable over the full grid per
timestamp (mean/median/min/max, all `skipna`), materialises the merged
stats as a data frame with a leading `time` column, appends `year`
(int16) and `month` (int8) columns, drops `time`, and reorders the
columns to `["year", "month"] ++ stat columns`. -/

/-- Minimum with `skipna`: `none` when no value is present. -/
def nanmin (vs : List Val) : Val := (vs.filterMap id).min?

/-- Maximum with `skipna`. -/
def nanmax (vs : List Val) : Val := (vs.filterMap id).max?

/-- Median with `skipna` and numpy's midpoint interpolation for even
counts. -/
def nanmedian (vs : List Val) : Val :=
  let p := (vs.filterMap id).insertionSort (fun a b => a ≤ b)
  if p.length = 0 then none
  else if p.length % 2 = 1 then some (p.getD (p.length / 2) 0)
  else some ((p.getD (p.length / 2 - 1) 0 + p.getD (p.length / 2) 0) / 2)

/-- All grid-cell values of a variable at one timestamp. -/
def cellVals (ds : Dataset) (f : MTime → ℚ → ℚ → Val) (t : MTime) : List Val :=
  ds.lats.flatMap (fun la => ds.lons.map (fun lo => f t la lo))

/-- `ds[col]`: the variable named `col`.  (Requesting an absent variable
raises `KeyError` in the source; the claims below are stated for inputs
that contain every requested variable.) -/
def getVar (ds : Dataset) (name : String) : MTime → ℚ → ℚ → Val :=
  match ds.data_vars.find? (fun v => v.1 == name) with
  | some v => v.2
  | none => fun _ _ _ => none

/-- The data of one pandas column. -/
inductive ColVals
  | ints (zs : List Int)
  | rats (qs : List Val)
  | mtimes (ts : List MTime)
deriving DecidableEq, Repr

/-- A pandas column: label, dtype tag, data. -/
structure Column where
  name : String
  dtype : String
  vals : ColVals
deriving DecidableEq, Repr

/-- A pandas data frame, as its list of columns. -/
abbrev DataFrame := List Column

/-- Number of rows held by a column. -/
def ColVals.len : ColVals → Nat
  | ints zs => zs.length
  | rats qs => qs.length
  | mtimes ts => ts.length

/-- `.astype("int16")`: two's-complement wraparound to 16 bits. -/
def wrap16 (z : Int) : Int := (z + 2 ^ 15) % 2 ^ 16 - 2 ^ 15

/-- `.astype("int8")`: two's-complement wraparound to 8 bits. -/
def wrap8 (z : Int) : Int := (z + 2 ^ 7) % 2 ^ 8 - 2 ^ 7

/-- The four statistic columns `{col}_mean`, `{col}_median`, `{col}_min`,
`{col}_max` of one requested variable, reduced over the full grid per
timestamp (lines 208-217). -/
def statColumns (ds : Dataset) (c : String) : List Column :=
  [Column.mk (c ++ "_mean") "float32"
     (ColVals.rats (ds.times.map (fun t => nanmean (cellVals ds (getVar ds c) t)))),
   Column.mk (c ++ "_median") "float32"
     (ColVals.rats (ds.times.map (fun t => nanmedian (cellVals ds (getVar ds c) t)))),
   Column.mk (c ++ "_min") "float32"
     (ColVals.rats (ds.times.map (fun t => nanmin (cellVals ds (getVar ds c) t)))),
   Column.mk (c ++ "_max") "float32"
     (ColVals.rats (ds.times.map (fun t => nanmax (cellVals ds (getVar ds c) t))))]

/-- The statistic-column labels, in requested-variable order. -/
def statNames (columns : List String) : List String :=
  columns.flatMap (fun c => [c ++ "_mean", c ++ "_median", c ++ "_min", c ++ "_max"])

/-- Column selection `pdf[names]`. -/
def selectCols (df : DataFrame) (names : List String) : DataFrame :=
  names.filterMap (fun n => df.find? (fun c => c.name == n))

/-- Lines 200-230: merge the per-variable stats, materialise with a
leading `time` column, append `year` (int16) and `month` (int8), drop
`time`, and reorder to `["year", "month"] ++ stat columns`. -/
def compute_global_monthly_stats (ds : Dataset) (columns : List String) : DataFrame :=
  let base : DataFrame :=
    Column.mk "time" "datetime64" (ColVals.mtimes ds.times)
      :: columns.flatMap (statColumns ds)
  let withYM := base ++
    [Column.mk "year" "int16" (ColVals.ints (ds.times.map (fun t => wrap16 t.year))),
     Column.mk "month" "int8" (ColVals.ints (ds.times.map (fun t => wrap8 (t.month : Int))))]
  let dropped := withYM.filter (fun c => !(c.name == "time"))
  let stat_cols := (dropped.map Column.name).filter
    (fun n => !(n == "year" || n == "month"))
  selectCols dropped (["year", "month"] ++ stat_cols)

lemma statColumns_map_name (ds : Dataset) (columns : List String) :
    (columns.flatMap (statColumns ds)).map Column.name = statNames columns := by
  induction columns with
  | nil => rfl
  | cons c cs ih =>
    simp only [statNames, List.flatMap_cons, List.map_append, ih]
    rfl

lemma mem_statColumns_len {ds : Dataset} {c : String} {col : Column}
    (h : col ∈ statColumns ds c) : col.vals.len = ds.times.length := by
  simp only [statColumns, List.mem_cons, List.mem_singleton] at h
  rcases h with h | h | h | h | h
  · rw [h]; simp [ColVals.len]
  · rw [h]; simp [ColVals.len]
  · rw [h]; simp [ColVals.len]
  · rw [h]; simp [ColVals.len]
  · cases h

lemma selectCols_names (df : DataFrame) (names : List String)
    (h : ∀ n ∈ names, ∃ c ∈ df, c.name = n) :
    (selectCols df names).map Column.name = names ∧
    ∀ c ∈ selectCols df names, c ∈ df := by
  induction names with
  | nil => exact ⟨rfl, by simp [selectCols]⟩
  | cons n ns ih =>
    obtain ⟨c, hc, hcn⟩ := h n (List.mem_cons_self n ns)
    have hsome : (df.find? (fun c => c.name == n)).isSome = true := by
      rw [List.find?_isSome]
      exact ⟨c, hc, by simp [hcn]⟩
    obtain ⟨c', hc'⟩ := Option.isSome_iff_exists.mp hsome
    have hc'name : c'.name = n := by
      have := List.find?_some hc'
      simpa using this
    have hc'mem : c' ∈ df := List.mem_of_find?_eq_some hc'
    have ihh := ih (fun m hm => h m (List.mem_cons_of_mem n hm))
    constructor
    · simp only [selectCols, List.filterMap_cons, hc']
      simp only [List.map_cons, hc'name]
      exact congrArg (n :: ·) ihh.1
    · intro x hx
      simp only [selectCols, List.filterMap_cons, hc', List.mem_cons] at hx
      rcases hx with rfl | hx
      · exact hc'mem
      · exact ihh.2 x hx

lemma wrap16_eq {z : Int} (h1 : -(2 ^ 15) ≤ z) (h2 : z < 2 ^ 15) : wrap16 z = z := by
  unfold wrap16
  omega

lemma wrap8_eq {z : Int} (h1 : -(2 ^ 7) ≤ z) (h2 : z < 2 ^ 7) : wrap8 z = z := by
  unfold wrap8
  omega

lemma compute_global_monthly_stats_eq (ds : Dataset) (columns : List String)
    (htn : "time" ∉ statNames columns)
    (hyn : "year" ∉ statNames columns)
    (hmn : "month" ∉ statNames columns) :
    compute_global_monthly_stats ds columns
      = Column.mk "year" "int16"
          (ColVals.ints (ds.times.map (fun t => wrap16 t.year)))
        :: Column.mk "month" "int8"
          (ColVals.ints (ds.times.map (fun t => wrap8 (t.month : Int))))
        :: selectCols
          (columns.flatMap (statColumns ds)
            ++ [Column.mk "year" "int16"
                  (ColVals.ints (ds.times.map (fun t => wrap16 t.year))),
                Column.mk "month" "int8"
                  (ColVals.ints (ds.times.map (fun t => wrap8 (t.month : Int))))])
          (statNames columns) := by
  have hSain : ∀ col ∈ columns.flatMap (statColumns ds),
      col.name ∈ statNames columns := by
    intro col hcol
    rw [← statColumns_map_name ds columns]
    exact List.mem_map_of_mem _ hcol
  have hfiltS : (columns.flatMap (statColumns ds)).filter
      (fun c => !(c.name == "time")) = columns.flatMap (statColumns ds) := by
    rw [List.filter_eq_self]
    intro col hcol
    have hne : col.name ≠ "time" := fun h => htn (h ▸ hSain col hcol)
    simp [hne]
  have hfiltN : (statNames columns).filter
      (fun n => !(n == "year" || n == "month")) = statNames columns := by
    rw [List.filter_eq_self]
    intro n hn
    have hne1 : n ≠ "year" := fun h => hyn (h ▸ hn)
    have hne2 : n ≠ "month" := fun h => hmn (h ▸ hn)
    simp [hne1, hne2]
  have hfindY : (columns.flatMap (statColumns ds)
      ++ [Column.mk "year" "int16"
            (ColVals.ints (ds.times.map (fun t => wrap16 t.year))),
          Column.mk "month" "int8"
            (ColVals.ints (ds.times.map (fun t => wrap8 (t.month : Int))))]).find?
        (fun c => c.name == "year")
      = some (Column.mk "year" "int16"
          (ColVals.ints (ds.times.map (fun t => wrap16 t.year)))) := by
    rw [List.find?_append]
    have hnone : (columns.flatMap (statColumns ds)).find?
        (fun c => c.name == "year") = none := by
      rw [List.find?_eq_none]
      intro col hcol
      have hne : col.name ≠ "year" := fun h => hyn (h ▸ hSain col hcol)
      simp [hne]
    rw [hnone]
    simp
  have hfindM : (columns.flatMap (statColumns ds)
      ++ [Column.mk "year" "int16"
            (ColVals.ints (ds.times.map (fun t => wrap16 t.year))),
          Column.mk "month" "int8"
            (ColVals.ints (ds.times.map (fun t => wrap8 (t.month : Int))))]).find?
        (fun c => c.name == "month")
      = some (Column.mk "month" "int8"
          (ColVals.ints (ds.times.map (fun t => wrap8 (t.month : Int))))) := by
    rw [List.find?_append]
    have hnone : (columns.flatMap (statColumns ds)).find?
        (fun c => c.name == "month") = none := by
      rw [List.find?_eq_none]
      intro col hcol
      have hne : col.name ≠ "month" := fun h => hmn (h ▸ hSain col hcol)
      simp [hne]
    rw [hnone]
    simp
  simp only [compute_global_monthly_stats]
  rw [List.cons_append, List.filter_cons]
  simp only [Column.name]
  rw [List.filter_append, hfiltS]
  have h2 : ([Column.mk "year" "int16"
        (ColVals.ints (ds.times.map (fun t => wrap16 t.year))),
      Column.mk "month" "int8"
        (ColVals.ints (ds.times.map (fun t => wrap8 (t.month : Int))))].filter
      (fun c => !(c.name == "time")))
      = [Column.mk "year" "int16"
          (ColVals.ints (ds.times.map (fun t => wrap16 t.year))),
        Column.mk "month" "int8"
          (ColVals.ints (ds.times.map (fun t => wrap8 (t.month : Int))))] := by
    simp
  rw [show ((("time" == "time") : Bool) = true) from rfl]
  simp only [Bool.not_true, Bool.false_eq_true, if_false]
  rw [h2, List.map_append, statColumns_map_name]
  have h3 : (([Column.mk "year" "int16"
        (ColVals.ints (ds.times.map (fun t => wrap16 t.year))),
      Column.mk "month" "int8"
        (ColVals.ints (ds.times.map (fun t => wrap8 (t.month : Int))))].map
          Column.name))
      = ["year", "month"] := rfl
  rw [h3, List.filter_append, hfiltN]
  have h4 : (["year", "month"].filter (fun n => !(n == "year" || n == "month")))
      = [] := rfl
  rw [h4, List.append_nil]
  show selectCols _ ("year" :: "month" :: statNames columns) = _
  simp only [selectCols, List.filterMap_cons, hfindY, hfindM]

/-- C4: the Global Aggregator output has exactly one row per (year, month)
present in the input, its row count equals the input timestep count, the
original `time` column is dropped in favour of `year` (int16) and `month`
(int8), and the columns are ordered `year`, `month`, then the
mean/median/min/max statistic columns in requested-variable order. -/
theorem global_stats_shape_correct (ds : Dataset) (columns : List String)
    (htn : "time" ∉ statNames columns)
    (hyn : "year" ∉ statNames columns)
    (hmn : "month" ∉ statNames columns)
    (hy16 : ∀ t ∈ ds.times, -(2 ^ 15) ≤ t.year ∧ t.year < 2 ^ 15)
    (hm12 : ∀ t ∈ ds.times, 1 ≤ t.month ∧ t.month ≤ 12)
    (huniq : (ds.times.map (fun t => (t.year, t.month))).Nodup) :
    ∃ rest : DataFrame,
      compute_global_monthly_stats ds columns
        = Column.mk "year" "int16" (ColVals.ints (ds.times.map MTime.year))
          :: Column.mk "month" "int8"
              (ColVals.ints (ds.times.map (fun t => (t.month : Int))))
          :: rest ∧
      rest.map Column.name = statNames columns ∧
      (∀ col ∈ compute_global_monthly_stats ds columns,
        col.vals.len = ds.times.length) ∧
      (ds.times.map (fun t => (t.year, (t.month : Int)))).Nodup ∧
      "time" ∉ (compute_global_monthly_stats ds columns).map Column.name := by
  have hyearvals : ds.times.map (fun t => wrap16 t.year) = ds.times.map MTime.year :=
    List.map_congr_left (fun t ht => wrap16_eq (hy16 t ht).1 (hy16 t ht).2)
  have hmonthvals : ds.times.map (fun t => wrap8 (t.month : Int))
      = ds.times.map (fun t => (t.month : Int)) :=
    List.map_congr_left (fun t ht => wrap8_eq
      (by have := hm12 t ht; omega) (by have := hm12 t ht; omega))
  have heq := compute_global_monthly_stats_eq ds columns htn hyn hmn
  rw [hyearvals, hmonthvals] at heq
  have hexist : ∀ n ∈ statNames columns,
      ∃ c ∈ (columns.flatMap (statColumns ds)
        ++ [Column.mk "year" "int16" (ColVals.ints (ds.times.map MTime.year)),
            Column.mk "month" "int8"
              (ColVals.ints (ds.times.map (fun t => (t.month : Int))))]),
        c.name = n := by
    intro n hn
    rw [← statColumns_map_name ds columns] at hn
    obtain ⟨col, hcol, hname⟩ := List.mem_map.mp hn
    exact ⟨col, List.mem_append_left _ hcol, hname⟩
  have hsel := selectCols_names _ _ hexist
  refine ⟨_, heq, hsel.1, ?_, ?_, ?_⟩
  · intro col hcol
    rw [heq] at hcol
    rcases List.mem_cons.mp hcol with rfl | hcol
    · simp [ColVals.len]
    rcases List.mem_cons.mp hcol with rfl | hcol
    · simp [ColVals.len]
    have hmem := hsel.2 col hcol
    rcases List.mem_append.mp hmem with hmem | hmem
    · obtain ⟨c, _, hc⟩ := List.mem_flatMap.mp hmem
      exact mem_statColumns_len hc
    · rcases List.mem_cons.mp hmem with rfl | hmem
      · simp [ColVals.len]
      rcases List.mem_cons.mp hmem with rfl | hmem
      · simp [ColVals.len]
      cases hmem
  · have hcomp : ds.times.map (fun t => (t.year, (t.month : Int)))
        = (ds.times.map (fun t => (t.year, t.month))).map
            (fun p => (p.1, (p.2 : Int))) := by
      rw [List.map_map]
      rfl
    rw [hcomp]
    refine huniq.map ?_
    intro p q hpq
    cases p
    cases q
    simp only [Prod.mk.injEq] at hpq
    exact Prod.ext hpq.1 (by exact_mod_cast hpq.2)
  · rw [heq]
    simp only [List.map_cons, List.mem_cons, hsel.1]
    push_neg
    exact ⟨by decide, by decide, htn⟩

/-! ## Spatial windowing (`compute_spatial_anomalies_recent`, lines 233-260)

The source slices one calendar year at a time, materialises that slice,
flattens it to one row per (timestamp, latitude, longitude), concatenates
the per-year tables, re-sorts by (latitude, longitude, year, month) and
resets the index; the resulting positional list models the index-reset
frame. -/

/-- One row of the Spatial Windower output. -/
structure SpatialRow where
  latitude : ℚ
  longitude : ℚ
  year : Int
  month : Int
  vals : List Val
deriving DecidableEq, Repr

/-- One flattened row (lines 247-252): the grid cell, the timestamp's
`year` (int16) and `month` (int8), and the requested variable values. -/
def mkSpatialRow (ds : Dataset) (columns : List String) (t : MTime)
    (la lo : ℚ) : SpatialRow :=
  SpatialRow.mk la lo (wrap16 t.year) (wrap8 (t.month : Int))
    (columns.map (fun c => getVar ds c t la lo))

/-- The rows contributed by one calendar year (lines 243-252): the year's
inclusive calendar slice of the time axis, flattened to one row per
(timestamp, latitude, longitude). -/
def yearRows (ds : Dataset) (columns : List String) (y : Int) : List SpatialRow :=
  (ds.times.filter (fun t => t.year == y)).flatMap (fun t =>
    ds.lats.flatMap (fun la =>
      ds.lons.map (fun lo => mkSpatialRow ds columns t la lo)))

/-- The `(latitude, longitude, year, month)` sort key, compared
lexicographically. -/
def rowKey (r : SpatialRow) : Lex (ℚ × Lex (ℚ × Lex (Int × Int))) :=
  toLex (r.latitude, toLex (r.longitude, toLex (r.year, r.month)))

/-- `sort_values(["latitude", "longitude", "year", "month"])`. -/
def sortRows (rows : List SpatialRow) : List SpatialRow :=
  rows.insertionSort (fun r s => rowKey r ≤ rowKey s)

/-- `range(start_year, end_year + 1)` over `Int`. -/
def yearsRange (start_year end_year : Int) : List Int :=
  (List.range (end_year + 1 - start_year).toNat).map
    (fun (i : Nat) => start_year + (i : Int))

/-- Lines 233-260: per-year flattening, concatenation, and the final
re-sort by (latitude, longitude, year, month). -/
def compute_spatial_anomalies_recent (ds : Dataset) (columns : List String)
    (start_year end_year : Int) : List SpatialRow :=
  sortRows ((yearsRange start_year end_year).flatMap
    (fun y => yearRows ds columns y))

instance : IsTotal SpatialRow (fun r s => rowKey r ≤ rowKey s) :=
  ⟨fun a b => le_total (rowKey a) (rowKey b)⟩

instance : IsTrans SpatialRow (fun r s => rowKey r ≤ rowKey s) :=
  ⟨fun _ _ _ => le_trans⟩

instance : IsAntisymm SpatialRow (fun r s => rowKey r < rowKey s) :=
  ⟨fun _ _ h1 h2 => (lt_asymm h1 h2).elim⟩

lemma sortRows_sorted (rows : List SpatialRow) :
    List.Sorted (fun r s => rowKey r ≤ rowKey s) (sortRows rows) :=
  List.sorted_insertionSort _ rows

lemma sortRows_perm (rows : List SpatialRow) :
    List.Perm (sortRows rows) rows :=
  List.perm_insertionSort _ rows

lemma mem_yearsRange {sy ey y : Int} :
    y ∈ yearsRange sy ey ↔ sy ≤ y ∧ y ≤ ey := by
  unfold yearsRange
  simp only [List.mem_map, List.mem_range]
  constructor
  · rintro ⟨i, hi, rfl⟩
    omega
  · intro h
    exact ⟨(y - sy).toNat, by omega, by omega⟩

lemma yearsRange_nodup (sy ey : Int) : (yearsRange sy ey).Nodup := by
  unfold yearsRange
  refine List.Nodup.map ?_ (List.nodup_range _)
  intro a b h
  dsimp only at h
  omega

lemma yearsRange_single (y : Int) : yearsRange y y = [y] := by
  unfold yearsRange
  have h : (y + 1 - y).toNat = 1 := by omega
  have h0 : List.range 1 = [0] := by decide
  rw [h, h0]
  simp

lemma sorted_strict_of_keys_nodup {l : List SpatialRow}
    (hs : List.Sorted (fun r s => rowKey r ≤ rowKey s) l)
    (hn : (l.map rowKey).Nodup) :
    List.Sorted (fun r s => rowKey r < rowKey s) l := by
  rw [List.Nodup, List.pairwise_map] at hn
  exact List.Pairwise.imp₂ (fun a b h1 h2 => lt_of_le_of_ne h1 h2) hs hn

lemma mem_yearRows {ds : Dataset} {columns : List String} {y : Int}
    {r : SpatialRow} (h : r ∈ yearRows ds columns y) :
    r.year = wrap16 y := by
  unfold yearRows at h
  obtain ⟨t, ht, hr⟩ := List.mem_flatMap.mp h
  obtain ⟨la, _, hr2⟩ := List.mem_flatMap.mp hr
  obtain ⟨lo, _, hr3⟩ := List.mem_map.mp hr2
  have hy : t.year = y := by simpa using (List.mem_filter.mp ht).2
  rw [← hr3]
  simp [mkSpatialRow, hy]

lemma length_flatMap_const {α β : Type} (l : List α) (f : α → List β) (k : Nat)
    (h : ∀ a ∈ l, (f a).length = k) : (l.flatMap f).length = l.length * k := by
  induction l with
  | nil => simp
  | cons a as ih =>
    rw [List.flatMap_cons, List.length_append, h a (List.mem_cons_self a as),
      ih (fun b hb => h b (List.mem_cons_of_mem a hb)), List.length_cons]
    ring

lemma nodup_flatMap_of {α β : Type} (l : List α) (f : α → List β)
    (hl : ∀ a ∈ l, (f a).Nodup)
    (hdisj : l.Pairwise (fun a b => ∀ x ∈ f a, x ∉ f b)) :
    (l.flatMap f).Nodup := by
  induction l with
  | nil => simp
  | cons a as ih =>
    rw [List.flatMap_cons, List.nodup_append]
    obtain ⟨hd, hp⟩ := List.pairwise_cons.mp hdisj
    refine ⟨hl a (List.mem_cons_self a as),
      ih (fun b hb => hl b (List.mem_cons_of_mem a hb)) hp, ?_⟩
    intro x hx hx'
    obtain ⟨b, hb, hxb⟩ := List.mem_flatMap.mp hx'
    exact hd b hb x hx hxb

lemma filter_or_perm (l : List MTime) (p q : MTime → Bool)
    (hdisj : ∀ t ∈ l, ¬(p t = true ∧ q t = true)) :
    List.Perm (l.filter (fun t => p t || q t)) (l.filter p ++ l.filter q) := by
  induction l with
  | nil => simp
  | cons x xs ih =>
    have ih' := ih (fun t ht => hdisj t (List.mem_cons_of_mem x ht))
    by_cases hp : p x = true
    · have hq : q x = false := by
        cases hqx : q x
        · rfl
        · exact absurd ⟨hp, hqx⟩ (hdisj x (List.mem_cons_self x xs))
      simp only [List.filter_cons, hp, hq, Bool.true_or, if_true]
      exact ih'.cons x
    · have hp' : p x = false := by
        cases hpx : p x
        · rfl
        · exact absurd hpx hp
      by_cases hq : q x = true
      · simp only [List.filter_cons, hp', hq, Bool.false_or, if_true]
        simp only [Bool.false_eq_true, if_false]
        exact (ih'.cons x).trans List.perm_middle.symm
      · have hq' : q x = false := by
          cases hqx : q x
          · rfl
          · exact absurd hqx hq
        simp only [List.filter_cons, hp', hq', Bool.false_or, Bool.false_eq_true,
          if_false]
        exact ih'

lemma flatMap_year_filter_perm (l : List MTime) :
    ∀ Y : List Int, Y.Nodup →
      List.Perm (Y.flatMap (fun y => l.filter (fun t => t.year == y)))
        (l.filter (fun t => decide (t.year ∈ Y))) := by
  intro Y
  induction Y with
  | nil =>
    intro _
    simp
  | cons y ys ih =>
    intro hY
    obtain ⟨hy, hys⟩ := List.nodup_cons.mp hY
    rw [List.flatMap_cons]
    have hcong : l.filter (fun t => decide (t.year ∈ y :: ys))
        = l.filter (fun t => (t.year == y) || decide (t.year ∈ ys)) := by
      apply List.filter_congr
      intro t _
      by_cases h : t.year = y
      · simp [h]
      · simp [h, List.mem_cons]
    have hdisj : ∀ t ∈ l, ¬((t.year == y) = true ∧ decide (t.year ∈ ys) = true) := by
      intro t _ hand
      have e1 : t.year = y := by simpa using hand.1
      have e2 : t.year ∈ ys := by simpa using hand.2
      exact hy (e1 ▸ e2)
    rw [hcong]
    exact ((ih hys).append_left _).trans (filter_or_perm l _ _ hdisj).symm

lemma pairs_int_nodup {times : List MTime}
    (huniq : (times.map (fun t => (t.year, t.month))).Nodup) :
    (times.map (fun t => (t.year, (t.month : Int)))).Nodup := by
  have hcomp : times.map (fun t => (t.year, (t.month : Int)))
      = (times.map (fun t => (t.year, t.month))).map
          (fun p => (p.1, (p.2 : Int))) := by
    rw [List.map_map]
    rfl
  rw [hcomp]
  refine huniq.map ?_
  intro p q hpq
  cases p
  cases q
  simp only [Prod.mk.injEq] at hpq
  exact Prod.ext hpq.1 (by exact_mod_cast hpq.2)

lemma keys_nodup (ds : Dataset) (columns : List String) (ts : List MTime)
    (hpair : (ts.map (fun t => (wrap16 t.year, wrap8 (t.month : Int)))).Nodup)
    (hlat : ds.lats.Nodup) (hlon : ds.lons.Nodup) :
    ((ts.flatMap (fun t => ds.lats.flatMap (fun la =>
      ds.lons.map (fun lo => mkSpatialRow ds columns t la lo)))).map rowKey).Nodup := by
  rw [List.map_flatMap]
  apply nodup_flatMap_of
  · intro t _
    rw [List.map_flatMap]
    apply nodup_flatMap_of
    · intro la _
      rw [List.map_map]
      refine List.Nodup.map ?_ hlon
      intro lo1 lo2 h
      simp only [Function.comp, Function.comp_apply, rowKey, mkSpatialRow,
        toLex_inj, Prod.mk.injEq] at h
      exact h.2.1
    · refine hlat.imp ?_
      intro la1 la2 hne x hx1 hx2
      rw [List.map_map, List.mem_map] at hx1 hx2
      obtain ⟨lo1, _, he1⟩ := hx1
      obtain ⟨lo2, _, he2⟩ := hx2
      rw [← he2] at he1
      simp only [Function.comp, Function.comp_apply, rowKey, mkSpatialRow,
        toLex_inj, Prod.mk.injEq] at he1
      exact hne he1.1
  · have hp : ts.Pairwise (fun t1 t2 =>
        (wrap16 t1.year, wrap8 (t1.month : Int))
          ≠ (wrap16 t2.year, wrap8 (t2.month : Int))) := by
      rw [List.Nodup, List.pairwise_map] at hpair
      exact hpair
    refine hp.imp ?_
    intro t1 t2 hne x hx1 hx2
    rw [List.map_flatMap] at hx1 hx2
    rw [List.mem_flatMap] at hx1 hx2
    obtain ⟨la1, _, hx1⟩ := hx1
    obtain ⟨la2, _, hx2⟩ := hx2
    rw [List.map_map, List.mem_map] at hx1 hx2
    obtain ⟨lo1, _, he1⟩ := hx1
    obtain ⟨lo2, _, he2⟩ := hx2
    rw [← he2] at he1
    simp only [Function.comp, Function.comp_apply, rowKey, mkSpatialRow,
      toLex_inj, Prod.mk.injEq] at he1
    exact hne (by rw [he1.2.2.1, he1.2.2.2])

lemma filter_flatMap_single {Y : List Int} (hY : Y.Nodup) {y : Int}
    (hy : y ∈ Y) (f : Int → List SpatialRow)
    (hf : ∀ y' ∈ Y, ∀ r ∈ f y', r.year = y') :
    (Y.flatMap f).filter (fun r => r.year == y) = f y := by
  induction Y with
  | nil => cases hy
  | cons y0 ys ih =>
    rw [List.flatMap_cons, List.filter_append]
    obtain ⟨hy0, hys⟩ := List.nodup_cons.mp hY
    rcases List.mem_cons.mp hy with rfl | hy'
    · have h1 : (f y).filter (fun r => r.year == y) = f y :=
        List.filter_eq_self.mpr (fun r hr => by
          simp [hf y (List.mem_cons_self y ys) r hr])
      have h2 : (ys.flatMap f).filter (fun r => r.year == y) = [] := by
        rw [List.filter_eq_nil_iff]
        intro r hr
        obtain ⟨y', hy', hr'⟩ := List.mem_flatMap.mp hr
        have hry : r.year = y' := hf y' (List.mem_cons_of_mem y hy') r hr'
        have hne : y' ≠ y := fun h => hy0 (h ▸ hy')
        simp [hry, hne]
      rw [h1, h2, List.append_nil]
    · have hne : y0 ≠ y := fun h => hy0 (h ▸ hy')
      have h1 : (f y0).filter (fun r => r.year == y) = [] := by
        rw [List.filter_eq_nil_iff]
        intro r hr
        have hry : r.year = y0 := hf y0 (List.mem_cons_self y0 ys) r hr
        simp [hry, hne]
      rw [h1, List.nil_append]
      exact ih hys hy' (fun y' hm => hf y' (List.mem_cons_of_mem y0 hm))

/-- C5: the Spatial Windower output has one row per (grid cell, in-range
timestamp) — its row count is (number of grid cells) × (number of months
in the inclusive year range) — the rows are sorted by (latitude,
longitude, year, month), and restricting to a single year of a multi-year
run reproduces exactly the single-year run. -/
theorem spatial_window_correct (ds : Dataset) (columns : List String)
    (sy ey : Int) (hsy : -(2 ^ 15) ≤ sy) (hey : ey < 2 ^ 15)
    (hy16 : ∀ t ∈ ds.times, -(2 ^ 15) ≤ t.year ∧ t.year < 2 ^ 15)
    (hm12 : ∀ t ∈ ds.times, 1 ≤ t.month ∧ t.month ≤ 12)
    (huniq : (ds.times.map (fun t => (t.year, t.month))).Nodup)
    (hlat : ds.lats.Nodup) (hlon : ds.lons.Nodup) :
    (compute_spatial_anomalies_recent ds columns sy ey).length
      = ds.lats.length * ds.lons.length
        * (ds.times.filter (fun t => decide (sy ≤ t.year ∧ t.year ≤ ey))).length ∧
    List.Sorted (fun r s => rowKey r ≤ rowKey s)
      (compute_spatial_anomalies_recent ds columns sy ey) ∧
    ∀ y : Int, sy ≤ y → y ≤ ey →
      (compute_spatial_anomalies_recent ds columns sy ey).filter
          (fun r => r.year == y)
        = compute_spatial_anomalies_recent ds columns y y := by
  have hassoc : (yearsRange sy ey).flatMap (fun y => yearRows ds columns y)
      = ((yearsRange sy ey).flatMap
          (fun y => ds.times.filter (fun t => t.year == y))).flatMap
        (fun t => ds.lats.flatMap (fun la =>
          ds.lons.map (fun lo => mkSpatialRow ds columns t la lo))) := by
    rw [List.flatMap_assoc]
    rfl
  have hTSperm := flatMap_year_filter_perm ds.times (yearsRange sy ey)
    (yearsRange_nodup sy ey)
  have hFeq : ds.times.filter (fun t => decide (t.year ∈ yearsRange sy ey))
      = ds.times.filter (fun t => decide (sy ≤ t.year ∧ t.year ≤ ey)) := by
    apply List.filter_congr
    intro t _
    exact decide_eq_decide.mpr mem_yearsRange
  rw [hFeq] at hTSperm
  have hbuildlen : ∀ t : MTime, (ds.lats.flatMap (fun la =>
      ds.lons.map (fun lo => mkSpatialRow ds columns t la lo))).length
      = ds.lats.length * ds.lons.length := by
    intro t
    exact length_flatMap_const _ _ _ (fun la _ => List.length_map _ _)
  have hUlen : ((yearsRange sy ey).flatMap (fun y => yearRows ds columns y)).length
      = ds.lats.length * ds.lons.length
        * (ds.times.filter
            (fun t => decide (sy ≤ t.year ∧ t.year ≤ ey))).length := by
    rw [hassoc, length_flatMap_const _ _ (ds.lats.length * ds.lons.length)
      (fun t _ => hbuildlen t), hTSperm.length_eq]
    ring
  have hwrapcong : ds.times.map (fun t => (wrap16 t.year, wrap8 (t.month : Int)))
      = ds.times.map (fun t => (t.year, (t.month : Int))) :=
    List.map_congr_left (fun t ht => by
      rw [wrap16_eq (hy16 t ht).1 (hy16 t ht).2,
        wrap8_eq (by have := hm12 t ht; omega) (by have := hm12 t ht; omega)])
  have htimeskeys : (ds.times.map
      (fun t => (wrap16 t.year, wrap8 (t.month : Int)))).Nodup := by
    rw [hwrapcong]
    exact pairs_int_nodup huniq
  have hFkeys : ((ds.times.filter
      (fun t => decide (sy ≤ t.year ∧ t.year ≤ ey))).map
      (fun t => (wrap16 t.year, wrap8 (t.month : Int)))).Nodup :=
    List.Nodup.sublist ((List.filter_sublist _).map _) htimeskeys
  have hTSkeys : (((yearsRange sy ey).flatMap
      (fun y => ds.times.filter (fun t => t.year == y))).map
      (fun t => (wrap16 t.year, wrap8 (t.month : Int)))).Nodup :=
    ((hTSperm.map _).nodup_iff).mpr hFkeys
  have hUkeys : (((yearsRange sy ey).flatMap
      (fun y => yearRows ds columns y)).map rowKey).Nodup := by
    rw [hassoc]
    exact keys_nodup ds columns _ hTSkeys hlat hlon
  refine ⟨?_, ?_, ?_⟩
  · show (sortRows _).length = _
    rw [(sortRows_perm _).length_eq]
    exact hUlen
  · exact sortRows_sorted _
  · intro y h1 h2
    have hsingle : compute_spatial_anomalies_recent ds columns y y
        = sortRows (yearRows ds columns y) := by
      unfold compute_spatial_anomalies_recent
      rw [yearsRange_single]
      simp
    have hf : ∀ y' ∈ yearsRange sy ey, ∀ r ∈ yearRows ds columns y',
        r.year = y' := by
      intro y' hy' r hr
      have hb := mem_yearsRange.mp hy'
      rw [mem_yearRows hr]
      exact wrap16_eq (by omega) (by omega)
    have hfiltU : ((yearsRange sy ey).flatMap
        (fun y => yearRows ds columns y)).filter (fun r => r.year == y)
        = yearRows ds columns y :=
      filter_flatMap_single (yearsRange_nodup sy ey)
        (mem_yearsRange.mpr ⟨h1, h2⟩) _ hf
    have p1 := (sortRows_perm ((yearsRange sy ey).flatMap
      (fun y => yearRows ds columns y))).filter (fun r => r.year == y)
    rw [hfiltU] at p1
    have hperm : ((compute_spatial_anomalies_recent ds columns sy ey).filter
        (fun r => r.year == y)).Perm
        (compute_spatial_anomalies_recent ds columns y y) := by
      rw [hsingle]
      exact p1.trans (sortRows_perm _).symm
    have hmultikeys : ((compute_spatial_anomalies_recent ds columns sy ey).map
        rowKey).Nodup :=
      ((sortRows_perm _).map rowKey).nodup_iff.mpr hUkeys
    have hsl : ((compute_spatial_anomalies_recent ds columns sy ey).filter
        (fun r => r.year == y)).Sublist
        (compute_spatial_anomalies_recent ds columns sy ey) :=
      List.filter_sublist _
    have hstrictL : List.Sorted (fun r s => rowKey r < rowKey s)
        ((compute_spatial_anomalies_recent ds columns sy ey).filter
          (fun r => r.year == y)) :=
      sorted_strict_of_keys_nodup
        (List.Pairwise.sublist hsl (sortRows_sorted _))
        (List.Nodup.sublist (hsl.map rowKey) hmultikeys)
    have hyearkeys : ((yearRows ds columns y).map rowKey).Nodup := by
      rw [← hfiltU]
      exact List.Nodup.sublist ((List.filter_sublist _).map rowKey) hUkeys
    have hstrictR : List.Sorted (fun r s => rowKey r < rowKey s)
        (compute_spatial_anomalies_recent ds columns y y) := by
      rw [hsingle]
      exact sorted_strict_of_keys_nodup (sortRows_sorted _)
        (((sortRows_perm _).map rowKey).nodup_iff.mpr hyearkeys)
    exact List.eq_of_perm_of_sorted hperm hstrictL hstrictR

/-- C4 witness: the theorem applied to the worked example with requested
variable `t2m`. -/
theorem global_stats_shape_correct_witness :
    ("time" ∉ statNames ["t2m"]) ∧
    ((exampleDS.times.map (fun t => (t.year, t.month))).Nodup) ∧
    (∃ rest : DataFrame,
      compute_global_monthly_stats exampleDS ["t2m"]
        = Column.mk "year" "int16" (ColVals.ints (exampleDS.times.map MTime.year))
          :: Column.mk "month" "int8"
              (ColVals.ints (exampleDS.times.map (fun t => (t.month : Int))))
          :: rest ∧
      rest.map Column.name = statNames ["t2m"] ∧
      (∀ col ∈ compute_global_monthly_stats exampleDS ["t2m"],
        col.vals.len = exampleDS.times.length) ∧
      (exampleDS.times.map (fun t => (t.year, (t.month : Int)))).Nodup ∧
      "time" ∉ (compute_global_monthly_stats exampleDS ["t2m"]).map Column.name) :=
  ⟨by decide, by decide,
   global_stats_shape_correct exampleDS ["t2m"] (by decide) (by decide) (by decide)
     (by decide) (by decide) (by decide)⟩

/-- C5 witness: the theorem applied to the worked example over the
two-year window 1991-1992. -/
theorem spatial_window_correct_witness :
    ((exampleDS.times.map (fun t => (t.year, t.month))).Nodup) ∧
    exampleDS.lats.Nodup ∧ exampleDS.lons.Nodup ∧
    ((compute_spatial_anomalies_recent exampleDS ["t2m"] 1991 1992).length
      = exampleDS.lats.length * exampleDS.lons.length
        * (exampleDS.times.filter
            (fun t => decide (1991 ≤ t.year ∧ t.year ≤ 1992))).length ∧
    List.Sorted (fun r s => rowKey r ≤ rowKey s)
      (compute_spatial_anomalies_recent exampleDS ["t2m"] 1991 1992) ∧
    ∀ y : Int, 1991 ≤ y → y ≤ 1992 →
      (compute_spatial_anomalies_recent exampleDS ["t2m"] 1991 1992).filter
          (fun r => r.year == y)
        = compute_spatial_anomalies_recent exampleDS ["t2m"] y y) :=
  ⟨by decide, by decide, by decide,
   spatial_window_correct exampleDS ["t2m"] 1991 1992 (by decide) (by decide)
     (by decide) (by decide) (by decide) (by decide) (by decide)⟩
